import Mathlib

/-!
# cli-url-reader: the validator and the retry loop of `doRequest`

A shallow embedding of `src/main.go`. The effects of `doRequest` (log lines, prints, the
calls of `httpClient.Get`, `io.ReadAll`, `res.Body.Close` and `time.Sleep`) are recorded as a
list of events; the answers of the network and the durations of the calls are supplied by an
environment, one answer per call of `httpClient.Get`.
-/

namespace UrlReader

/-! ## Regular expressions (the fragment used by `validURLReg`) -/

/-- Regular expressions over runes, with character classes given as predicates. -/
inductive Regex where
  | nothing : Regex
  | eps : Regex
  | cls : (Char → Bool) → Regex
  | cat : Regex → Regex → Regex
  | alt : Regex → Regex → Regex
  | star : Regex → Regex

namespace Regex

/-- Whether the expression matches the empty string. -/
def nullable : Regex → Bool
  | nothing => false
  | eps => true
  | cls _ => false
  | cat r s => nullable r && nullable s
  | alt r s => nullable r || nullable s
  | star _ => true

/-- Brzozowski derivative: the expression matching the rest of a string after the rune `c`. -/
def deriv : Regex → Char → Regex
  | nothing, _ => nothing
  | eps, _ => nothing
  | cls p, c => if p c then eps else nothing
  | cat r s, c =>
    if nullable r then alt (cat (deriv r c) s) (deriv s c) else cat (deriv r c) s
  | alt r s, c => alt (deriv r c) (deriv s c)
  | star r, c => cat (deriv r c) (star r)

/-- Whether the whole string matches the expression. -/
def fullMatch (r : Regex) (s : List Char) : Bool := nullable (s.foldl deriv r)

/-- A literal rune. -/
def lit (c : Char) : Regex := cls (fun x => x == c)

/-- A range `lo-hi` inside a bracket expression. -/
def range (lo hi : Char) : Regex := cls (fun x => decide (lo ≤ x) && decide (x ≤ hi))

/-- The operator `?`. -/
def opt (r : Regex) : Regex := alt r eps

/-- The operator `+`. -/
def plus (r : Regex) : Regex := cat r (star r)

/-- The pattern `.` without the `s` flag: any rune but the line feed. -/
def anyNotNL : Regex := cls (fun x => x != Char.ofNat 10)

/-- Declarative meaning of an expression: the strings it matches. -/
inductive Matches : Regex → List Char → Prop
  | eps : Matches Regex.eps []
  | cls (p : Char → Bool) (c : Char) : p c = true → Matches (Regex.cls p) [c]
  | cat (r s : Regex) (u v : List Char) : Matches r u → Matches s v → Matches (Regex.cat r s) (u ++ v)
  | altL (r s : Regex) (u : List Char) : Matches r u → Matches (Regex.alt r s) u
  | altR (r s : Regex) (u : List Char) : Matches s u → Matches (Regex.alt r s) u
  | starNil (r : Regex) : Matches (Regex.star r) []
  | starCons (r : Regex) (u v : List Char) :
      Matches r u → Matches (Regex.star r) v → Matches (Regex.star r) (u ++ v)

end Regex

open Regex
/-- The body of the pattern compiled at line 43, between the anchors `^` and `$`:
`((http[s]?):\/\/)?(www.)?[a-z0-9]+\.[a-z]+(\/[a-zA-Z0-9#]+\/?)*`. -/
def validURLReg : Regex :=
  cat (opt (cat (cat (cat (lit 'h') (cat (lit 't') (cat (lit 't') (lit 'p')))) (opt (lit 's')))
        (cat (lit ':') (cat (lit '/') (lit '/')))))
  (cat (opt (cat (lit 'w') (cat (lit 'w') (cat (lit 'w') anyNotNL))))
  (cat (plus (alt (range 'a' 'z') (range '0' '9')))
  (cat (lit '.')
  (cat (plus (range 'a' 'z'))
    (star (cat (lit '/')
      (cat (plus (alt (range 'a' 'z') (alt (range 'A' 'Z') (alt (range '0' '9') (lit '#')))))
        (opt (lit '/')))))))))

/-- Method `MatchString` for a pattern anchored by `^` and `$` (no `m` flag): the whole
string has to match the body. -/
def MatchString (re : Regex) (s : String) : Bool := re.fullMatch s.toList

/-! ## Machine integers -/

/-- Width of the type `int` on the target platform: 32 or 64 bits. -/
inductive IntSize where
  | bits32
  | bits64
  deriving DecidableEq

namespace IntSize

/-- Half of the modulus, 2^(w-1), for an `int` of `w` bits. -/
def half : IntSize → Int
  | bits32 => 2147483648
  | bits64 => 9223372036854775808

/-- The largest `int` (math.MaxInt). -/
def maxInt (sz : IntSize) : Int := sz.half - 1

/-- The smallest `int` (math.MinInt). -/
def minInt (sz : IntSize) : Int := - sz.half

/-- Two-complement wrap-around of a mathematical integer into the range of `int`. -/
def wrap (sz : IntSize) (x : Int) : Int := (x + sz.half) % (2 * sz.half) - sz.half

end IntSize

/-! ## Configuration, environment and events -/

/-- The flag variables of `main` (lines 30-34) with the width of `int`. The flag package
parses `-maxretries` and `-maxworkers` into an `int`, so both lie in its range. -/
structure Config where
  intSize : IntSize
  maxRetries : Int
  maxWorkers : Int
  inputFile : String
  maxRetries_fits : intSize.minInt ≤ maxRetries ∧ maxRetries ≤ intSize.maxInt
  maxWorkers_fits : intSize.minInt ≤ maxWorkers ∧ maxWorkers ≤ intSize.maxInt

/-- Constant `queueSize`. -/
def queueSize : Nat := 100

/-- Constant `requestTimeout` in nanoseconds (time.Second * 5). -/
def requestTimeout : Nat := 1000000000 * 5

/-- Constant `retryDelay` in nanoseconds (time.Millisecond * 200). -/
def retryDelay : Nat := 1000000 * 200

/-- The largest `time.Duration` (an `int64` count of nanoseconds): 2^63 - 1. -/
def maxDuration : Nat := 9223372036854775807

/-- Function `time.Since` on the monotonic clock: the nanoseconds elapsed between the reading
`start` and the reading `now`, saturating at the largest `Duration`. -/
def timeSince (start now : Nat) : Nat := min (now - start) maxDuration

/-- Constant `http.StatusOK`. -/
def StatusOK : Int := 200

/-- What the environment answers for a response obtained by `httpClient.Get`. -/
structure Response where
  /-- Field `res.StatusCode`. -/
  statusCode : Int
  /-- The bytes returned by `io.ReadAll(res.Body)`. -/
  body : List (Fin 256)
  /-- Whether `io.ReadAll` returned a non-nil error. -/
  readErr : Bool
  /-- Whether `res.Body.Close()` returned a non-nil error. -/
  closeErr : Bool
  deriving DecidableEq

/-- Everything the environment decides about one iteration of the retry loop that reaches
`httpClient.Get`: the pair `(res, err)` and the time the calls take on the monotonic clock. -/
structure Attempt where
  /-- The result of `httpClient.Get(url)`: `.error e` when `err != nil`, else the response. -/
  result : Except String Response
  /-- Nanoseconds spent inside `httpClient.Get`. -/
  getTime : Nat
  /-- Nanoseconds spent inside `io.ReadAll` and `res.Body.Close`. -/
  readTime : Nat
  /-- Nanoseconds by which `time.Sleep(retryDelay)` overshoots `retryDelay`. -/
  overSleep : Nat

/-- The observable effects of `doRequest`, one constructor per effectful statement. -/
inductive Event where
  /-- Line 99: log "invalid url". -/
  | logInvalid (url : String)
  /-- Line 111: log "failed all retries for url". -/
  | logFailedAll (url : String)
  /-- Line 115: the call `httpClient.Get(url)`. -/
  | get (url : String)
  /-- Line 117: log "failed to send request". -/
  | logSendFailed (url : String) (err : String)
  /-- Line 124: log "response failed with status code". -/
  | logStatus (code : Int) (url : String)
  /-- Lines 119 and 126: the call `time.Sleep(d)`. -/
  | sleep (d : Nat)
  /-- Line 130: the call `io.ReadAll(res.Body)`. -/
  | readAll
  /-- Line 131: the call `res.Body.Close()`. -/
  | closeBody
  /-- Line 132: log "failed to close body". -/
  | logCloseFailed (url : String)
  /-- Line 137: log "failed to read response". -/
  | logReadFailed (url : String)
  /-- Line 141: print "Size of ...: n bytes". -/
  | printSize (url : String) (size : Nat)
  /-- Line 142: print "Processing time for ...", with `time.Since(startProcessing)`. -/
  | printTime (url : String) (elapsed : Nat)
  /-- Line 143: the empty line. -/
  | println
  deriving DecidableEq

/-! ## The program -/

/-- The `for` loop of `doRequest` (lines 107-146). `attempt` is the Go variable before the
increment, `calls` counts the calls of `httpClient.Get` made so far (the index of the next
answer of the environment), `now` is the monotonic clock. The result is the list of effects
from this iteration to the return of `doRequest`; `none` means that the fuel ran out before
the function returned. -/
def retryLoop (cfg : Config) (env : Nat → Attempt) (url : String) (startProcessing : Nat) :
    Nat → Int → Nat → Nat → Option (List Event)
  | 0, _, _, _ => none
  | fuel + 1, attempt, calls, now =>
    let attempt := cfg.intSize.wrap (attempt + 1)
    if attempt > cfg.maxRetries then
      some [Event.logFailedAll url]
    else
      let a := env calls
      let now := now + a.getTime
      match a.result with
      | .error err =>
        (retryLoop cfg env url startProcessing fuel attempt (calls + 1)
            (now + (retryDelay + a.overSleep))).map
          fun rest => Event.get url :: Event.logSendFailed url err :: Event.sleep retryDelay :: rest
      | .ok res =>
        if res.statusCode ≠ StatusOK then
          (retryLoop cfg env url startProcessing fuel attempt (calls + 1)
              (now + (retryDelay + a.overSleep))).map
            fun rest =>
              Event.get url :: Event.logStatus res.statusCode url :: Event.sleep retryDelay :: rest
        else
          let now := now + a.readTime
          if res.closeErr then
            some [Event.get url, Event.readAll, Event.closeBody, Event.logCloseFailed url]
          else if res.readErr then
            some [Event.get url, Event.readAll, Event.closeBody, Event.logReadFailed url]
          else
            some [Event.get url, Event.readAll, Event.closeBody,
              Event.printSize url res.body.length,
              Event.printTime url (timeSince startProcessing now), Event.println]

/-- Function `doRequest` (lines 97-147); `now` is the reading of `time.Now()` at line 103. -/
def doRequest (cfg : Config) (env : Nat → Attempt) (now : Nat) (fuel : Nat) (url : String) :
    Option (List Event) :=
  if !MatchString validURLReg url then
    some [Event.logInvalid url]
  else
    retryLoop cfg env url now fuel 0 0 now

/-! ## Observations on a run -/

/-- Number of fetch attempts in a run: the calls of `httpClient.Get`. -/
def attempts : List Event → Nat
  | [] => 0
  | Event.get _ :: t => attempts t + 1
  | _ :: t => attempts t

/-- Number of calls of `time.Sleep` in a run. -/
def sleeps : List Event → Nat
  | [] => 0
  | Event.sleep _ :: t => sleeps t + 1
  | _ :: t => sleeps t

/-- Number of calls of `res.Body.Close` in a run. -/
def closes : List Event → Nat
  | [] => 0
  | Event.closeBody :: t => closes t + 1
  | _ :: t => closes t

/-- The terminal states of the retry controller of the specification. -/
inductive FetchResult where
  | Succeeded
  | GaveUp
  | Rejected
  deriving DecidableEq

/-- The terminal state a run ends in, read off its final report: the two prints of a
success, the log lines of the failures that end the loop, or the log line of the validator. -/
def outcome : List Event → Option FetchResult
  | [] => none
  | Event.logInvalid _ :: _ => some FetchResult.Rejected
  | Event.logFailedAll _ :: _ => some FetchResult.GaveUp
  | Event.logCloseFailed _ :: _ => some FetchResult.GaveUp
  | Event.logReadFailed _ :: _ => some FetchResult.GaveUp
  | Event.printSize _ _ :: _ => some FetchResult.Succeeded
  | _ :: t => outcome t

/-- The size printed by a run, if any. -/
def reportedSize : List Event → Option Nat
  | [] => none
  | Event.printSize _ n :: _ => some n
  | _ :: t => reportedSize t

/-- The processing time printed by a run, if any. -/
def reportedElapsed : List Event → Option Nat
  | [] => none
  | Event.printTime _ d :: _ => some d
  | _ :: t => reportedElapsed t

/-- Whether a run reports that the budget of attempts is exhausted (line 111). -/
def exhausted : List Event → Bool
  | [] => false
  | Event.logFailedAll _ :: _ => true
  | _ :: t => exhausted t

/-! ## Classification of the answers of the environment -/

namespace Attempt

/-- The attempt ends in one of the two `continue` branches: `err != nil` (line 116) or
`res.StatusCode != http.StatusOK` (line 123). -/
def retryable (a : Attempt) : Bool :=
  match a.result with
  | .error _ => true
  | .ok res => decide (res.statusCode ≠ StatusOK)

/-- The attempt has status 200 and `io.ReadAll` fails. -/
def fatal (a : Attempt) : Bool :=
  match a.result with
  | .error _ => false
  | .ok res => decide (res.statusCode = StatusOK) && res.readErr

/-- The attempt has status 200 and `res.Body.Close` fails. -/
def closeFails (a : Attempt) : Bool :=
  match a.result with
  | .error _ => false
  | .ok res => decide (res.statusCode = StatusOK) && res.closeErr

/-- The attempt reaches the prints of lines 141-143: status 200, body closed and read. -/
def succeeds (a : Attempt) : Bool :=
  match a.result with
  | .error _ => false
  | .ok res => decide (res.statusCode = StatusOK) && !res.closeErr && !res.readErr

/-- The number of bytes `io.ReadAll` returned, 0 when there is no response. -/
def size (a : Attempt) : Nat :=
  match a.result with
  | .error _ => 0
  | .ok res => res.body.length

/-- The effects of an iteration that ends in `continue`. -/
def retryEvents (url : String) (a : Attempt) : List Event :=
  match a.result with
  | .error err => [Event.get url, Event.logSendFailed url err, Event.sleep retryDelay]
  | .ok res => [Event.get url, Event.logStatus res.statusCode url, Event.sleep retryDelay]

/-- The clock after an iteration that ends in `continue`. -/
def retryClock (a : Attempt) (now : Nat) : Nat := now + a.getTime + (retryDelay + a.overSleep)

end Attempt

/-- The effects of `k` consecutive iterations ending in `continue`, from call `calls` on. -/
def retryTrace (url : String) (env : Nat → Attempt) : Nat → Nat → List Event
  | _, 0 => []
  | calls, k + 1 => (env calls).retryEvents url ++ retryTrace url env (calls + 1) k

/-- The clock after `k` consecutive iterations ending in `continue`. -/
def clockAfter (env : Nat → Attempt) : Nat → Nat → Nat → Nat
  | _, 0, now => now
  | calls, k + 1, now => clockAfter env (calls + 1) k ((env calls).retryClock now)
/-! ## The classification table of the specification -/

/-- The outcome of one fetch attempt in the vocabulary of the specification. -/
inductive AttemptOutcome where
  | Success (size : Nat)
  | RetryableFailure
  | FatalFailure
  deriving DecidableEq

/-- The classification rule in the words of the specification: a transport error is a
retryable failure, a non-success status is a retryable failure, a success status with a body
read failure is a fatal failure, a success status with a fully read body is a success with
the size of the body in bytes. -/
def specClassify (a : Attempt) : AttemptOutcome :=
  match a.result with
  | .error _ => AttemptOutcome.RetryableFailure
  | .ok res =>
    if res.statusCode ≠ StatusOK then AttemptOutcome.RetryableFailure
    else if res.readErr then AttemptOutcome.FatalFailure
    else AttemptOutcome.Success res.body.length

/-! ## The workers -/

/-- The calls `doRequest(url)` made by the workers (lines 66-68), one for each line sent on
the queue (lines 85-87), each call with an environment and a clock of its own. The order in
which the workers make the calls is not part of the model. -/
def processLines (cfg : Config) (env : Nat → Nat → Attempt) (now : Nat → Nat) (fuel : Nat)
    (lines : List String) : List (Option (List Event)) :=
  lines.enum.map fun p => doRequest cfg (env p.1) (now p.1) fuel p.2

/-- Number of rejected candidates among the results of a batch. -/
def rejectedCount (rs : List (Option (List Event))) : Nat :=
  rs.countP fun r => decide (r.bind outcome = some FetchResult.Rejected)

/-- Number of candidates of a batch for which a fetch was attempted. -/
def attemptedCount (rs : List (Option (List Event))) : Nat :=
  rs.countP fun r => decide (1 ≤ (r.map attempts).getD 0)

/-! ## Concrete configurations, environments and inputs -/

/-- The default flags, with the given budget of attempts and pool size. -/
def cfgOf (sz : IntSize) (retries workers : Fin 1000) : Config :=
  { intSize := sz
    maxRetries := (retries.val : Int)
    maxWorkers := (workers.val : Int)
    inputFile := "input.txt"
    maxRetries_fits := by
      have := retries.isLt
      cases sz <;> simp only [IntSize.minInt, IntSize.maxInt, IntSize.half] <;> omega
    maxWorkers_fits := by
      have := workers.isLt
      cases sz <;> simp only [IntSize.minInt, IntSize.maxInt, IntSize.half] <;> omega }

/-- The flags `-maxretries 3 -maxworkers 10` (the defaults) on a 64-bit platform. -/
def cfgDefault : Config := cfgOf IntSize.bits64 3 10

/-- The flags `-maxretries 1` on a 64-bit platform. -/
def cfgOne : Config := cfgOf IntSize.bits64 1 10

/-- The flags of the scenario: `-maxretries 3 -maxworkers 2`. -/
def cfgScenario (sz : IntSize) : Config := cfgOf sz 3 2

/-- The flag `-maxretries 9223372036854775807` on a 64-bit platform. -/
def cfgMax64 : Config :=
  { intSize := IntSize.bits64
    maxRetries := 9223372036854775807
    maxWorkers := 10
    inputFile := "input.txt"
    maxRetries_fits := by decide
    maxWorkers_fits := by decide }

/-- The flag `-maxretries 2147483647` on a 32-bit platform. -/
def cfgMax32 : Config :=
  { intSize := IntSize.bits32
    maxRetries := 2147483647
    maxWorkers := 10
    inputFile := "input.txt"
    maxRetries_fits := by decide
    maxWorkers_fits := by decide }

/-- A network on which every request times out. -/
def envTimeout : Nat → Attempt :=
  fun _ => { result := .error "timeout", getTime := 5000000000, readTime := 0, overSleep := 1 }

/-- A server that answers every request with status 404. -/
def envNotFound : Nat → Attempt :=
  fun _ =>
    { result := .ok { statusCode := 404, body := [], readErr := false, closeErr := false }
      getTime := 7, readTime := 0, overSleep := 1 }

/-- Two timeouts, then status 200 with a body of three bytes. -/
def envThirdOk : Nat → Attempt :=
  fun n =>
    if n < 2 then
      { result := .error "timeout", getTime := 5000000000, readTime := 0, overSleep := 1 }
    else
      { result := .ok { statusCode := 200, body := [104, 105, 10], readErr := false,
                        closeErr := false }
        getTime := 7, readTime := 3, overSleep := 0 }

/-- One timeout, then status 200 with a body whose read is torn after one byte. -/
def envTornRead : Nat → Attempt :=
  fun n =>
    if n < 1 then
      { result := .error "timeout", getTime := 5000000000, readTime := 0, overSleep := 1 }
    else
      { result := .ok { statusCode := 200, body := [104], readErr := true, closeErr := false }
        getTime := 7, readTime := 3, overSleep := 0 }

/-- Status 200 with a body of three bytes that is read to its end, and a failing close. -/
def envCloseFails : Nat → Attempt :=
  fun _ =>
    { result := .ok { statusCode := 200, body := [104, 105, 10], readErr := false,
                      closeErr := true }
      getTime := 7, readTime := 3, overSleep := 0 }

/-- One timeout, then status 200 with a body of three bytes that is read to its end, and a
failing close. -/
def envSecondCloseFails : Nat → Attempt :=
  fun n =>
    if n < 1 then
      { result := .error "timeout", getTime := 5000000000, readTime := 0, overSleep := 1 }
    else
      { result := .ok { statusCode := 200, body := [104, 105, 10], readErr := false,
                        closeErr := true }
        getTime := 7, readTime := 3, overSleep := 0 }

/-- The flag `-maxretries 46116860186` on a 64-bit platform. -/
def cfgLong : Config :=
  { intSize := IntSize.bits64
    maxRetries := 46116860186
    maxWorkers := 10
    inputFile := "input.txt"
    maxRetries_fits := by decide
    maxWorkers_fits := by decide }

/-- A network on which 46116860185 requests time out and the next one is answered with
status 200 and a body of three bytes. -/
def envLongWait : Nat → Attempt :=
  fun n =>
    if n < 46116860185 then
      { result := .error "timeout", getTime := 0, readTime := 0, overSleep := 0 }
    else
      { result := .ok { statusCode := 200, body := [104, 105, 10], readErr := false,
                        closeErr := false }
        getTime := 7, readTime := 3, overSleep := 0 }

/-- First candidate of the scenario. -/
def urlA : String := "http://example.com/a"

/-- Second candidate of the scenario. -/
def notAUrl : String := "not a url"

/-- Third candidate of the scenario. -/
def urlB : String := "http://example.com/b"

/-- The input of the scenario. -/
def scenarioBatch : List String := [urlA, notAUrl, urlB]


/-! ## Regular expressions: the matcher decides the declarative meaning -/

namespace Regex

theorem not_matches_nothing (w : List Char) : ¬ Matches nothing w := by
  intro h; cases h

theorem matches_eps_iff (w : List Char) : Matches eps w ↔ w = [] := by
  constructor
  · intro h; cases h; rfl
  · rintro rfl; exact Matches.eps

theorem matches_cls_iff (p : Char → Bool) (w : List Char) :
    Matches (cls p) w ↔ ∃ c, w = [c] ∧ p c = true := by
  constructor
  · intro h; cases h with
    | cls _ c hc => exact ⟨c, rfl, hc⟩
  · rintro ⟨c, rfl, hc⟩; exact Matches.cls p c hc

theorem matches_cat_iff (r s : Regex) (w : List Char) :
    Matches (cat r s) w ↔ ∃ u v, w = u ++ v ∧ Matches r u ∧ Matches s v := by
  constructor
  · intro h; cases h with
    | cat _ _ u v hu hv => exact ⟨u, v, rfl, hu, hv⟩
  · rintro ⟨u, v, rfl, hu, hv⟩; exact Matches.cat r s u v hu hv

theorem matches_alt_iff (r s : Regex) (w : List Char) :
    Matches (alt r s) w ↔ Matches r w ∨ Matches s w := by
  constructor
  · intro h; cases h with
    | altL _ _ _ h => exact Or.inl h
    | altR _ _ _ h => exact Or.inr h
  · rintro (h | h)
    · exact Matches.altL r s w h
    · exact Matches.altR r s w h

/-- A non-empty match of a star starts with a non-empty match of its body. -/
theorem matches_star_cons (r : Regex) (c : Char) (s : List Char) :
    Matches (star r) (c :: s) ↔
      ∃ u v, s = u ++ v ∧ Matches r (c :: u) ∧ Matches (star r) v := by
  constructor
  · intro h
    generalize hR : star r = R at h
    generalize hw : c :: s = w at h
    induction h generalizing s with
    | eps => cases hR
    | cls _ _ _ => cases hR
    | cat _ _ _ _ _ _ _ _ => cases hR
    | altL _ _ _ _ _ => cases hR
    | altR _ _ _ _ _ => cases hR
    | starNil _ => cases hw
    | starCons r0 u v hu hv _ ihv =>
      cases hR
      cases u with
      | nil => exact ihv s rfl (by simpa using hw)
      | cons d u =>
        simp only [List.cons_append, List.cons.injEq] at hw
        obtain ⟨rfl, rfl⟩ := hw
        exact ⟨u, v, rfl, hu, hv⟩
  · rintro ⟨u, v, rfl, hu, hv⟩
    exact Matches.starCons r (c :: u) v hu hv

theorem nullable_iff (r : Regex) : nullable r = true ↔ Matches r [] := by
  induction r with
  | nothing => simp [nullable, not_matches_nothing]
  | eps => simp [nullable, matches_eps_iff]
  | cls p => simp [nullable, matches_cls_iff]
  | cat r s ihr ihs =>
    simp only [nullable, Bool.and_eq_true, ihr, ihs, matches_cat_iff]
    constructor
    · rintro ⟨hr, hs⟩; exact ⟨[], [], rfl, hr, hs⟩
    · rintro ⟨u, v, huv, hr, hs⟩
      have huv2 := huv.symm
      simp only [List.append_eq_nil] at huv2
      obtain ⟨rfl, rfl⟩ := huv2
      exact ⟨hr, hs⟩
  | alt r s ihr ihs => simp [nullable, ihr, ihs, matches_alt_iff]
  | star r _ => simp [nullable, Matches.starNil]

theorem deriv_iff (r : Regex) (c : Char) : ∀ s, Matches (deriv r c) s ↔ Matches r (c :: s) := by
  induction r with
  | nothing => intro s; simp [deriv, not_matches_nothing]
  | eps => intro s; simp [deriv, not_matches_nothing, matches_eps_iff]
  | cls p =>
    intro s
    simp only [deriv, matches_cls_iff]
    by_cases hp : p c = true
    · simp only [hp, if_true, matches_eps_iff]
      constructor
      · rintro rfl; exact ⟨c, rfl, hp⟩
      · rintro ⟨d, hd, _⟩
        simp only [List.cons.injEq] at hd
        exact hd.2
    · simp only [hp, if_false]
      constructor
      · intro h; exact absurd h (not_matches_nothing s)
      · rintro ⟨d, hd, hpd⟩
        simp only [List.cons.injEq] at hd
        obtain ⟨rfl, _⟩ := hd
        exact absurd hpd hp
  | cat r1 r2 ih1 ih2 =>
    intro s
    have key : Matches (cat r1 r2) (c :: s) ↔
        (∃ u v, s = u ++ v ∧ Matches r1 (c :: u) ∧ Matches r2 v) ∨
          (Matches r1 [] ∧ Matches r2 (c :: s)) := by
      rw [matches_cat_iff]
      constructor
      · rintro ⟨u, v, huv, hu, hv⟩
        cases u with
        | nil => right; exact ⟨hu, by simpa using huv ▸ hv⟩
        | cons d u =>
          simp only [List.cons_append, List.cons.injEq] at huv
          obtain ⟨rfl, rfl⟩ := huv
          left; exact ⟨u, v, rfl, hu, hv⟩
      · rintro (⟨u, v, rfl, hu, hv⟩ | ⟨hu, hv⟩)
        · exact ⟨c :: u, v, rfl, hu, hv⟩
        · exact ⟨[], c :: s, rfl, hu, hv⟩
    rw [key]
    simp only [deriv]
    by_cases hn : nullable r1 = true
    · have hnil : Matches r1 [] := (nullable_iff r1).1 hn
      rw [if_pos hn, matches_alt_iff, matches_cat_iff, ih2]
      simp only [ih1, hnil, true_and]
    · have hnil : ¬ Matches r1 [] := fun h => hn ((nullable_iff r1).2 h)
      rw [if_neg hn, matches_cat_iff]
      simp only [ih1, hnil, false_and, or_false]
  | alt r1 r2 ih1 ih2 => intro s; simp [deriv, matches_alt_iff, ih1, ih2]
  | star r ih =>
    intro s
    simp only [deriv, matches_cat_iff, ih, matches_star_cons]

/-- The derivative matcher accepts exactly the strings the expression matches. -/
theorem fullMatch_iff (r : Regex) (s : List Char) : fullMatch r s = true ↔ Matches r s := by
  induction s generalizing r with
  | nil => simpa [fullMatch] using nullable_iff r
  | cons c s ih =>
    have := ih (deriv r c)
    simp only [fullMatch, List.foldl_cons] at this ⊢
    rw [this, deriv_iff]

end Regex

/-! ## Machine integers: facts -/

theorem IntSize.wrap_eq_self (sz : IntSize) (x : Int) (h1 : sz.minInt ≤ x)
    (h2 : x ≤ sz.maxInt) : sz.wrap x = x := by
  cases sz <;> simp only [IntSize.wrap, IntSize.minInt, IntSize.maxInt, IntSize.half] at * <;> omega

theorem IntSize.wrap_le_maxInt (sz : IntSize) (x : Int) : sz.wrap x ≤ sz.maxInt := by
  cases sz <;> simp only [IntSize.wrap, IntSize.maxInt, IntSize.half] <;> omega

theorem IntSize.one_le_maxInt (sz : IntSize) : 1 ≤ sz.maxInt := by
  cases sz <;> simp only [IntSize.maxInt, IntSize.half] <;> omega

theorem IntSize.minInt_le_zero (sz : IntSize) : sz.minInt ≤ 0 := by
  cases sz <;> simp only [IntSize.minInt, IntSize.half] <;> omega

/-- The increment `attempt++` does not overflow below the largest `int`. -/
theorem IntSize.wrap_succ (sz : IntSize) (x : Int) (h1 : 0 ≤ x) (h2 : x < sz.maxInt) :
    sz.wrap (x + 1) = x + 1 := by
  apply IntSize.wrap_eq_self
  · have := sz.minInt_le_zero; omega
  · omega

/-! ## Observations: facts -/

theorem attempts_append (s t : List Event) : attempts (s ++ t) = attempts s + attempts t := by
  induction s with
  | nil => simp [attempts]
  | cons e s ih => cases e <;> simp [attempts, ih]; omega

theorem sleeps_append (s t : List Event) : sleeps (s ++ t) = sleeps s + sleeps t := by
  induction s with
  | nil => simp [sleeps]
  | cons e s ih => cases e <;> simp [sleeps, ih]; omega

theorem attempts_retryEvents (url : String) (a : Attempt) : attempts (a.retryEvents url) = 1 := by
  unfold Attempt.retryEvents; split <;> simp [attempts]

theorem sleeps_retryEvents (url : String) (a : Attempt) : sleeps (a.retryEvents url) = 1 := by
  unfold Attempt.retryEvents; split <;> simp [sleeps]

theorem outcome_retryEvents_append (url : String) (a : Attempt) (t : List Event) :
    outcome (a.retryEvents url ++ t) = outcome t := by
  unfold Attempt.retryEvents; split <;> simp [outcome]

theorem reportedElapsed_retryEvents_append (url : String) (a : Attempt) (t : List Event) :
    reportedElapsed (a.retryEvents url ++ t) = reportedElapsed t := by
  unfold Attempt.retryEvents; split <;> simp [reportedElapsed]

theorem reportedSize_retryEvents_append (url : String) (a : Attempt) (t : List Event) :
    reportedSize (a.retryEvents url ++ t) = reportedSize t := by
  unfold Attempt.retryEvents; split <;> simp [reportedSize]

theorem attempts_retryTrace (url : String) (env : Nat → Attempt) (k calls : Nat) :
    attempts (retryTrace url env calls k) = k := by
  induction k generalizing calls with
  | zero => simp [retryTrace, attempts]
  | succ k ih => simp [retryTrace, attempts_append, attempts_retryEvents, ih]; omega

theorem sleeps_retryTrace (url : String) (env : Nat → Attempt) (k calls : Nat) :
    sleeps (retryTrace url env calls k) = k := by
  induction k generalizing calls with
  | zero => simp [retryTrace, sleeps]
  | succ k ih => simp [retryTrace, sleeps_append, sleeps_retryEvents, ih]; omega

theorem outcome_retryTrace_append (url : String) (env : Nat → Attempt) (k calls : Nat)
    (t : List Event) : outcome (retryTrace url env calls k ++ t) = outcome t := by
  induction k generalizing calls with
  | zero => simp [retryTrace]
  | succ k ih => simp [retryTrace, List.append_assoc, outcome_retryEvents_append, ih]

theorem reportedElapsed_retryTrace_append (url : String) (env : Nat → Attempt) (k calls : Nat)
    (t : List Event) : reportedElapsed (retryTrace url env calls k ++ t) = reportedElapsed t := by
  induction k generalizing calls with
  | zero => simp [retryTrace]
  | succ k ih => simp [retryTrace, List.append_assoc, reportedElapsed_retryEvents_append, ih]

theorem reportedSize_retryTrace_append (url : String) (env : Nat → Attempt) (k calls : Nat)
    (t : List Event) : reportedSize (retryTrace url env calls k ++ t) = reportedSize t := by
  induction k generalizing calls with
  | zero => simp [retryTrace]
  | succ k ih => simp [retryTrace, List.append_assoc, reportedSize_retryEvents_append, ih]

theorem exhausted_retryEvents_append (url : String) (a : Attempt) (t : List Event) :
    exhausted (a.retryEvents url ++ t) = exhausted t := by
  unfold Attempt.retryEvents; split <;> simp [exhausted]

theorem exhausted_retryTrace_append (url : String) (env : Nat → Attempt) (k calls : Nat)
    (t : List Event) : exhausted (retryTrace url env calls k ++ t) = exhausted t := by
  induction k generalizing calls with
  | zero => simp [retryTrace]
  | succ k ih => simp [retryTrace, List.append_assoc, exhausted_retryEvents_append, ih]

/-- The clock only moves forward, by at least `retryDelay` per retry. -/
theorem clockAfter_ge (env : Nat → Attempt) (k calls now : Nat) :
    now + k * retryDelay ≤ clockAfter env calls k now := by
  induction k generalizing calls now with
  | zero => simp [clockAfter]
  | succ k ih =>
    have h := ih (calls + 1) ((env calls).retryClock now)
    simp only [clockAfter]
    unfold Attempt.retryClock at h ⊢
    have : (k + 1) * retryDelay = k * retryDelay + retryDelay := by ring
    omega

/-! ## The retry loop: one iteration -/

/-- An iteration whose attempt is within the budget and ends in `continue`. -/
theorem retryLoop_retry (cfg : Config) (env : Nat → Attempt) (url : String) (st fuel : Nat)
    (attempt : Int) (calls now : Nat)
    (hmade : cfg.intSize.wrap (attempt + 1) ≤ cfg.maxRetries)
    (hr : (env calls).retryable = true) :
    retryLoop cfg env url st (fuel + 1) attempt calls now =
      (retryLoop cfg env url st fuel (cfg.intSize.wrap (attempt + 1)) (calls + 1)
        ((env calls).retryClock now)).map (fun rest => (env calls).retryEvents url ++ rest) := by
  rw [retryLoop]
  simp only [gt_iff_lt, not_lt.mpr hmade, if_false]
  unfold Attempt.retryable at hr
  unfold Attempt.retryEvents Attempt.retryClock
  split <;> rename_i heq <;> rw [heq] at hr <;> simp at hr ⊢
  simp [hr]

/-- An iteration whose attempt is beyond the budget. -/
theorem retryLoop_exhausted (cfg : Config) (env : Nat → Attempt) (url : String) (st fuel : Nat)
    (attempt : Int) (calls now : Nat)
    (hover : cfg.maxRetries < cfg.intSize.wrap (attempt + 1)) :
    retryLoop cfg env url st (fuel + 1) attempt calls now = some [Event.logFailedAll url] := by
  rw [retryLoop]
  simp [hover]


/-- An iteration within the budget whose response has status 200, closes and is read. -/
theorem retryLoop_success (cfg : Config) (env : Nat → Attempt) (url : String) (st fuel : Nat)
    (attempt : Int) (calls now : Nat)
    (hmade : cfg.intSize.wrap (attempt + 1) ≤ cfg.maxRetries)
    (hs : (env calls).succeeds = true) :
    retryLoop cfg env url st (fuel + 1) attempt calls now =
      some [Event.get url, Event.readAll, Event.closeBody,
        Event.printSize url (env calls).size,
        Event.printTime url (timeSince st (now + (env calls).getTime + (env calls).readTime)),
        Event.println] := by
  rw [retryLoop]
  simp only [gt_iff_lt, not_lt.mpr hmade, if_false]
  unfold Attempt.succeeds at hs
  unfold Attempt.size
  split <;> rename_i heq <;> rw [heq] at hs <;> simp at hs ⊢
  simp [hs]

/-- An iteration within the budget whose response has status 200 and cannot be read. -/
theorem retryLoop_fatal (cfg : Config) (env : Nat → Attempt) (url : String) (st fuel : Nat)
    (attempt : Int) (calls now : Nat)
    (hmade : cfg.intSize.wrap (attempt + 1) ≤ cfg.maxRetries)
    (hf : (env calls).fatal = true) :
    retryLoop cfg env url st (fuel + 1) attempt calls now =
      some [Event.get url, Event.readAll, Event.closeBody,
        if (env calls).closeFails then Event.logCloseFailed url else Event.logReadFailed url] := by
  rw [retryLoop]
  simp only [gt_iff_lt, not_lt.mpr hmade, if_false]
  unfold Attempt.fatal at hf
  unfold Attempt.closeFails
  split <;> rename_i heq <;> rw [heq] at hf <;> simp at hf ⊢
  simp [hf]
  split <;> simp

/-! ## The retry loop: several iterations -/

/-- After `k` iterations that end in `continue`, all within the budget, the loop is at
iteration `attempt + k` and has produced their effects. -/
theorem retryLoop_retries (cfg : Config) (env : Nat → Attempt) (url : String) (st : Nat)
    (k : Nat) : ∀ (fuel : Nat) (attempt : Int) (calls now : Nat), 0 ≤ attempt →
      attempt + k ≤ cfg.maxRetries →
      (∀ j, j < k → (env (calls + j)).retryable = true) →
      retryLoop cfg env url st (fuel + k) attempt calls now =
        (retryLoop cfg env url st fuel (attempt + k) (calls + k) (clockAfter env calls k now)).map
          (fun rest => retryTrace url env calls k ++ rest) := by
  induction k with
  | zero =>
    intro fuel attempt calls now _ _ _
    simp [retryTrace, clockAfter]
  | succ k ih =>
    intro fuel attempt calls now h0 hle hall
    have hfit := cfg.maxRetries_fits.2
    have hw : cfg.intSize.wrap (attempt + 1) = attempt + 1 :=
      IntSize.wrap_succ _ _ h0 (by push_cast at hle; omega)
    have hr0 : (env calls).retryable = true := by simpa using hall 0 (Nat.succ_pos k)
    have hstep := retryLoop_retry cfg env url st (fuel + k) attempt calls now
      (by rw [hw]; push_cast at hle; omega) hr0
    rw [show fuel + (k + 1) = fuel + k + 1 by omega, hstep, hw]
    rw [ih fuel (attempt + 1) (calls + 1) ((env calls).retryClock now) (by omega)
      (by push_cast at hle; omega)
      (fun j hj => by
        have := hall (j + 1) (by omega)
        rwa [show calls + (j + 1) = calls + 1 + j by omega] at this)]
    rw [Option.map_map]
    have e1 : attempt + 1 + (k : Int) = attempt + ((k + 1 : Nat) : Int) := by push_cast; ring
    have e2 : calls + 1 + k = calls + (k + 1) := by omega
    rw [e1, e2]
    congr 1
    funext rest
    simp [retryTrace, List.append_assoc, Function.comp]

/-- Below the largest `int`, the loop returns once the fuel exceeds the remaining budget, and
makes at most as many attempts as the budget has left. -/
theorem retryLoop_terminates (cfg : Config) (env : Nat → Attempt) (url : String) (st : Nat)
    (hlt : cfg.maxRetries < cfg.intSize.maxInt) :
    ∀ (fuel : Nat) (attempt : Int) (calls now : Nat), 0 ≤ attempt →
      attempt < cfg.intSize.maxInt →
      (cfg.maxRetries - attempt).toNat < fuel →
      ∃ t, retryLoop cfg env url st fuel attempt calls now = some t ∧
        attempts t ≤ (cfg.maxRetries - attempt).toNat := by
  intro fuel
  induction fuel with
  | zero => intro attempt calls now _ _ h; omega
  | succ fuel ih =>
    intro attempt calls now h0 hmax hfuel
    have hw : cfg.intSize.wrap (attempt + 1) = attempt + 1 := IntSize.wrap_succ _ _ h0 hmax
    by_cases hover : cfg.maxRetries < attempt + 1
    · refine ⟨[Event.logFailedAll url], ?_, by simp [attempts]⟩
      exact retryLoop_exhausted cfg env url st fuel attempt calls now (by rw [hw]; exact hover)
    · have hmade : cfg.intSize.wrap (attempt + 1) ≤ cfg.maxRetries := by rw [hw]; omega
      have hbudget : (cfg.maxRetries - attempt).toNat = (cfg.maxRetries - (attempt + 1)).toNat + 1 := by
        omega
      by_cases hr : (env calls).retryable = true
      · obtain ⟨t, ht, hat⟩ := ih (attempt + 1) (calls + 1) ((env calls).retryClock now)
          (by omega) (by omega) (by omega)
        refine ⟨(env calls).retryEvents url ++ t, ?_, ?_⟩
        · rw [retryLoop_retry cfg env url st fuel attempt calls now hmade hr, hw, ht]
          rfl
        · rw [attempts_append, attempts_retryEvents]; omega
      · rw [retryLoop]
        simp only [gt_iff_lt, not_lt.mpr hmade, if_false]
        unfold Attempt.retryable at hr
        split <;> rename_i heq <;> rw [heq] at hr <;> simp at hr
        simp only [hr, ne_eq, not_true_eq_false, if_false]
        split
        · exact ⟨_, rfl, by simp [attempts]; omega⟩
        · split
          · exact ⟨_, rfl, by simp [attempts]; omega⟩
          · exact ⟨_, rfl, by simp [attempts]; omega⟩

/-- With the largest `int` as budget, the test `attempt > maxRetries` never holds: when every
attempt ends in `continue` the loop does not return, whatever the fuel. -/
theorem retryLoop_diverges (cfg : Config) (env : Nat → Attempt) (url : String) (st : Nat)
    (hmax : cfg.maxRetries = cfg.intSize.maxInt)
    (hall : ∀ n, (env n).retryable = true) :
    ∀ (fuel : Nat) (attempt : Int) (calls now : Nat),
      retryLoop cfg env url st fuel attempt calls now = none := by
  intro fuel
  induction fuel with
  | zero => intro attempt calls now; rfl
  | succ fuel ih =>
    intro attempt calls now
    rw [retryLoop_retry cfg env url st fuel attempt calls now
      (by rw [hmax]; exact IntSize.wrap_le_maxInt _ _) (hall calls), ih]
    rfl

/-- Every run of the loop that returns ends in a success or in a give-up. It sleeps
`retryDelay` once for each attempt that ended in `continue`: one time less than it made
attempts when the last attempt ended the loop, as often as it made attempts when the budget
was exhausted. -/
theorem retryLoop_counts (cfg : Config) (env : Nat → Attempt) (url : String) (st : Nat) :
    ∀ (fuel : Nat) (attempt : Int) (calls now : Nat) (t : List Event),
      retryLoop cfg env url st fuel attempt calls now = some t →
      (∀ d, Event.sleep d ∈ t → d = retryDelay) ∧
      ((outcome t = some FetchResult.Succeeded ∧ sleeps t + 1 = attempts t) ∨
       (outcome t = some FetchResult.GaveUp ∧ exhausted t = true ∧ sleeps t = attempts t) ∨
       (outcome t = some FetchResult.GaveUp ∧ exhausted t = false ∧
          sleeps t + 1 = attempts t)) := by
  intro fuel
  induction fuel with
  | zero => intro attempt calls now t h; simp [retryLoop] at h
  | succ fuel ih =>
    intro attempt calls now t h
    rw [retryLoop] at h
    simp only [gt_iff_lt] at h
    split at h
    · simp only [Option.some.injEq] at h; subst h
      simp [outcome, sleeps, attempts, exhausted]
    · split at h
      · simp only [Option.map_eq_some'] at h
        obtain ⟨rest, hrest, rfl⟩ := h
        obtain ⟨hst, hc⟩ := ih _ _ _ _ hrest
        refine ⟨by intro d hd; simp at hd; rcases hd with h | h; exact h; exact hst d h, ?_⟩
        rcases hc with ⟨ho, hc⟩ | ⟨ho, he, hc⟩ | ⟨ho, he, hc⟩
        · left; simp [outcome, sleeps, attempts, ho, hc]
        · right; left; simp [outcome, sleeps, attempts, exhausted, ho, he, hc]
        · right; right; simp [outcome, sleeps, attempts, exhausted, ho, he, hc]
      · split at h
        · simp only [Option.map_eq_some'] at h
          obtain ⟨rest, hrest, rfl⟩ := h
          obtain ⟨hst, hc⟩ := ih _ _ _ _ hrest
          refine ⟨by intro d hd; simp at hd; rcases hd with h | h; exact h; exact hst d h, ?_⟩
          rcases hc with ⟨ho, hc⟩ | ⟨ho, he, hc⟩ | ⟨ho, he, hc⟩
          · left; simp [outcome, sleeps, attempts, ho, hc]
          · right; left; simp [outcome, sleeps, attempts, exhausted, ho, he, hc]
          · right; right; simp [outcome, sleeps, attempts, exhausted, ho, he, hc]
        · split at h
          · simp only [Option.some.injEq] at h; subst h
            simp [outcome, sleeps, attempts, exhausted]
          · split at h
            · simp only [Option.some.injEq] at h; subst h
              simp [outcome, sleeps, attempts, exhausted]
            · simp only [Option.some.injEq] at h; subst h
              simp [outcome, sleeps, attempts, exhausted]

/-- An iteration within the budget starts with a fetch attempt. -/
theorem retryLoop_attempts_pos (cfg : Config) (env : Nat → Attempt) (url : String)
    (st fuel : Nat) (attempt : Int) (calls now : Nat) (t : List Event)
    (hmade : cfg.intSize.wrap (attempt + 1) ≤ cfg.maxRetries)
    (h : retryLoop cfg env url st (fuel + 1) attempt calls now = some t) : 1 ≤ attempts t := by
  rw [retryLoop] at h
  simp only [gt_iff_lt] at h
  split at h
  · omega
  · split at h
    · simp only [Option.map_eq_some'] at h
      obtain ⟨rest, _, rfl⟩ := h
      simp [attempts]
    · split at h
      · simp only [Option.map_eq_some'] at h
        obtain ⟨rest, _, rfl⟩ := h
        simp [attempts]
      · split at h
        · simp only [Option.some.injEq] at h; subst h; simp [attempts]
        · split at h <;> (simp only [Option.some.injEq] at h; subst h; simp [attempts])

/-- More fuel does not change the result of a run that returned. -/
theorem retryLoop_fuel_succ (cfg : Config) (env : Nat → Attempt) (url : String) (st : Nat) :
    ∀ (fuel : Nat) (attempt : Int) (calls now : Nat) (t : List Event),
      retryLoop cfg env url st fuel attempt calls now = some t →
      retryLoop cfg env url st (fuel + 1) attempt calls now = some t := by
  intro fuel
  induction fuel with
  | zero => intro attempt calls now t h; simp [retryLoop] at h
  | succ fuel ih =>
    intro attempt calls now t h
    rw [retryLoop] at h ⊢
    simp only [gt_iff_lt] at h ⊢
    split
    · rename_i hc; simpa [hc] using h
    · rename_i hc
      simp only [hc, if_false] at h
      split
      · rename_i heq
        simp only [heq, Option.map_eq_some'] at h ⊢
        obtain ⟨rest, hrest, rfl⟩ := h
        exact ⟨rest, ih _ _ _ _ hrest, rfl⟩
      · rename_i heq
        simp only [heq] at h
        split
        · rename_i hs
          rw [if_pos hs] at h
          simp only [Option.map_eq_some'] at h ⊢
          obtain ⟨rest, hrest, rfl⟩ := h
          exact ⟨rest, ih _ _ _ _ hrest, rfl⟩
        · rename_i hs
          rw [if_neg hs] at h
          exact h

/-! ## The function `doRequest` -/

/-- For an accepted candidate `doRequest` is the retry loop started at attempt 0. -/
theorem doRequest_accepted (cfg : Config) (env : Nat → Attempt) (now fuel : Nat) (url : String)
    (hv : MatchString validURLReg url = true) :
    doRequest cfg env now fuel url = retryLoop cfg env url now fuel 0 0 now := by
  simp [doRequest, hv]

/-- For a rejected candidate `doRequest` returns after the log line of line 99. -/
theorem doRequest_of_rejected (cfg : Config) (env : Nat → Attempt) (now fuel : Nat)
    (url : String) (h : MatchString validURLReg url = false) :
    doRequest cfg env now fuel url = some [Event.logInvalid url] := by
  simp [doRequest, h]

/-- More fuel does not change the result of a call of `doRequest` that returned. -/
theorem doRequest_fuel_mono (cfg : Config) (env : Nat → Attempt) (now : Nat) (url : String)
    (t : List Event) (fuel extra : Nat) (h : doRequest cfg env now fuel url = some t) :
    doRequest cfg env now (fuel + extra) url = some t := by
  induction extra with
  | zero => exact h
  | succ extra ih =>
    unfold doRequest at ih ⊢
    split
    · rename_i hv; simpa [hv] using ih
    · rename_i hv
      simp only [hv, if_false] at ih
      exact retryLoop_fuel_succ cfg env url now (fuel + extra) 0 0 now t ih

/-- An accepted candidate with a budget between 1 and the largest `int` (excluded) is
attempted at least once and at most `maxRetries` times, and ends in a terminal state. -/
theorem doRequest_attempted (cfg : Config) (env : Nat → Attempt) (now fuel : Nat) (url : String)
    (hv : MatchString validURLReg url = true) (h1 : 1 ≤ cfg.maxRetries)
    (hlt : cfg.maxRetries < cfg.intSize.maxInt) (hfuel : cfg.maxRetries.toNat < fuel) :
    ∃ t, doRequest cfg env now fuel url = some t ∧ 1 ≤ attempts t ∧
      attempts t ≤ cfg.maxRetries.toNat ∧
      (outcome t = some FetchResult.Succeeded ∨ outcome t = some FetchResult.GaveUp) := by
  rw [doRequest_accepted cfg env now fuel url hv]
  obtain ⟨t, ht, hat⟩ := retryLoop_terminates cfg env url now hlt fuel 0 0 now (le_refl 0)
    (by omega) (by simpa using hfuel)
  refine ⟨t, ht, ?_, by simpa using hat, ?_⟩
  · obtain ⟨f, rfl⟩ : ∃ f, fuel = f + 1 := ⟨fuel - 1, by omega⟩
    refine retryLoop_attempts_pos cfg env url now f 0 0 now t ?_ ht
    rw [IntSize.wrap_succ _ _ (le_refl 0) (by omega)]
    omega
  · rcases (retryLoop_counts cfg env url now fuel 0 0 now t ht).2 with h | h | h
    · exact Or.inl h.1
    · exact Or.inr h.1
    · exact Or.inr h.1

/-! ## The claims -/

/-- C1: a candidate that `validURLReg.MatchString` rejects is never fetched, whatever the
configuration and the network: `doRequest` returns after the single log line "invalid url"
naming the candidate, without a call of `httpClient.Get` and without a retry delay. -/
theorem doRequest_rejected (cfg : Config) (env : Nat → Attempt) (now fuel : Nat) (url : String)
    (h : MatchString validURLReg url = false) :
    ∃ t, doRequest cfg env now fuel url = some t ∧ t = [Event.logInvalid url] ∧
      attempts t = 0 ∧ sleeps t = 0 ∧ outcome t = some FetchResult.Rejected := by
  exact ⟨[Event.logInvalid url], doRequest_of_rejected cfg env now fuel url h, rfl, rfl, rfl, rfl⟩

/-- C1 at a concrete input: the default flags and the candidate "not a url", with no fuel. -/
theorem doRequest_rejected_witness :
    MatchString validURLReg notAUrl = false ∧
    ∃ t, doRequest cfgDefault envThirdOk 0 0 notAUrl = some t ∧ t = [Event.logInvalid notAUrl] ∧
      attempts t = 0 ∧ sleeps t = 0 ∧ outcome t = some FetchResult.Rejected :=
  ⟨by decide, doRequest_rejected cfgDefault envThirdOk 0 0 notAUrl (by decide)⟩

/-- C2, as amended: for an accepted candidate and a budget `maxRetries` with
`1 ≤ maxRetries` and `maxRetries` below the largest `int`, if every fetch attempt ends in a
retryable failure then `doRequest` logs "failed all retries" after exactly `maxRetries`
attempts. -/
theorem doRequest_gives_up (cfg : Config) (env : Nat → Attempt) (now fuel : Nat) (url : String)
    (hv : MatchString validURLReg url = true) (h1 : 1 ≤ cfg.maxRetries)
    (hlt : cfg.maxRetries < cfg.intSize.maxInt)
    (hall : ∀ n, (env n).retryable = true) (hfuel : cfg.maxRetries.toNat < fuel) :
    ∃ t, doRequest cfg env now fuel url = some t ∧
      t = retryTrace url env 0 cfg.maxRetries.toNat ++ [Event.logFailedAll url] ∧
      outcome t = some FetchResult.GaveUp ∧ exhausted t = true ∧
      (attempts t : Int) = cfg.maxRetries := by
  rw [doRequest_accepted cfg env now fuel url hv]
  obtain ⟨f, rfl⟩ : ∃ f, fuel = f + 1 + cfg.maxRetries.toNat :=
    ⟨fuel - 1 - cfg.maxRetries.toNat, by omega⟩
  have hk : ((cfg.maxRetries.toNat : Nat) : Int) = cfg.maxRetries := Int.toNat_of_nonneg (by omega)
  rw [retryLoop_retries cfg env url now cfg.maxRetries.toNat (f + 1) 0 0 now (le_refl 0)
    (by omega) (fun j _ => hall _)]
  rw [retryLoop_exhausted cfg env url now f _ _ _
    (by rw [IntSize.wrap_succ _ _ (by omega) (by omega)]; omega)]
  refine ⟨_, rfl, rfl, ?_, ?_, ?_⟩
  · rw [outcome_retryTrace_append]; rfl
  · rw [exhausted_retryTrace_append]; rfl
  · rw [attempts_append, attempts_retryTrace]
    simp [attempts, hk]

/-- C2 at a concrete input: the default flags (three attempts) on a network where every request
times out. -/
theorem doRequest_gives_up_witness :
    (MatchString validURLReg urlA = true ∧ 1 ≤ cfgDefault.maxRetries ∧
      cfgDefault.maxRetries < cfgDefault.intSize.maxInt ∧
      (∀ n, (envTimeout n).retryable = true) ∧ cfgDefault.maxRetries.toNat < 4) ∧
    ∃ t, doRequest cfgDefault envTimeout 0 4 urlA = some t ∧
      t = retryTrace urlA envTimeout 0 cfgDefault.maxRetries.toNat ++ [Event.logFailedAll urlA] ∧
      outcome t = some FetchResult.GaveUp ∧ exhausted t = true ∧
      (attempts t : Int) = cfgDefault.maxRetries :=
  ⟨⟨by decide, by decide, by decide, fun _ => rfl, by decide⟩,
    doRequest_gives_up cfgDefault envTimeout 0 4 urlA (by decide) (by decide) (by decide)
      (fun _ => rfl) (by decide)⟩

/-- C2, the claim as stated fails: on a 32-bit platform with `-maxretries 2147483647` (the
largest `int`) and a server that always answers 404, the counter `attempt` wraps around and
`doRequest` never reaches "failed all retries": it does not return for any fuel. -/
theorem doRequest_never_gives_up_at_maxInt32 :
    MatchString validURLReg urlB = true ∧ 1 ≤ cfgMax32.maxRetries ∧
    (∀ n, (envNotFound n).retryable = true) ∧
    ¬ ∃ fuel t, doRequest cfgMax32 envNotFound 0 fuel urlB = some t := by
  refine ⟨by decide, by decide, fun _ => rfl, ?_⟩
  rintro ⟨fuel, t, h⟩
  rw [doRequest_accepted _ _ _ _ _ (by decide),
    retryLoop_diverges cfgMax32 envNotFound urlB 0 rfl (fun _ => rfl)] at h
  exact Option.noConfusion h

/-- A success of the table of the specification whose body also closes takes the path to
the prints, and its size is the number of bytes read. -/
theorem succeeds_of_specClassify (a : Attempt) (n : Nat)
    (hs : specClassify a = AttemptOutcome.Success n) (hc : a.closeFails = false) :
    a.succeeds = true ∧ a.size = n := by
  unfold specClassify at hs
  unfold Attempt.closeFails at hc
  unfold Attempt.succeeds Attempt.size
  cases hres : a.result with
  | error e => rw [hres] at hs; simp at hs
  | ok res =>
    rw [hres] at hs hc
    by_cases hst : res.statusCode = StatusOK
    · cases hr : res.readErr <;> cases hcl : res.closeErr <;> simp_all
    · simp [hst] at hs

/-- The run of an accepted candidate whose first `k` attempts end in `continue` and whose
attempt `k + 1`, within the budget, reaches the prints. -/
theorem doRequest_success_run (cfg : Config) (env : Nat → Attempt) (now fuel : Nat)
    (url : String) (k : Nat)
    (hv : MatchString validURLReg url = true) (hk : (k : Int) < cfg.maxRetries)
    (hfail : ∀ j, j < k → (env j).retryable = true) (hsucc : (env k).succeeds = true)
    (hfuel : k < fuel) :
    ∃ t, doRequest cfg env now fuel url = some t ∧
      outcome t = some FetchResult.Succeeded ∧ attempts t = k + 1 ∧ sleeps t = k ∧
      reportedSize t = some (env k).size ∧
      reportedElapsed t =
        some (timeSince now (clockAfter env 0 k now + (env k).getTime + (env k).readTime)) := by
  rw [doRequest_accepted cfg env now fuel url hv]
  obtain ⟨f, rfl⟩ : ∃ f, fuel = f + 1 + k := ⟨fuel - 1 - k, by omega⟩
  have hfit := cfg.maxRetries_fits.2
  rw [retryLoop_retries cfg env url now k (f + 1) 0 0 now (le_refl 0) (by omega)
    (fun j hj => by simpa using hfail j hj)]
  rw [retryLoop_success cfg env url now f _ _ _
    (by rw [IntSize.wrap_succ _ _ (by omega) (by omega)]; omega) (by simpa using hsucc)]
  simp only [Nat.zero_add, Option.map_some']
  refine ⟨_, rfl, ?_, ?_, ?_, ?_, ?_⟩
  · rw [outcome_retryTrace_append]; rfl
  · rw [attempts_append, attempts_retryTrace]; rfl
  · rw [sleeps_append, sleeps_retryTrace]; rfl
  · rw [reportedSize_retryTrace_append]; rfl
  · rw [reportedElapsed_retryTrace_append]; rfl

/-- The time printed after `k` retries is at least `k * retryDelay`, unless `time.Since`
saturates below that. -/
theorem timeSince_clockAfter_ge (env : Nat → Attempt) (k now extra : Nat) :
    min (k * retryDelay) maxDuration ≤ timeSince now (clockAfter env 0 k now + extra) := by
  have h := clockAfter_ge env k 0 now
  unfold timeSince
  simp only [le_min_iff, min_le_iff]
  exact ⟨Or.inl (by omega), Or.inr (le_refl _)⟩

/-- C3, as amended: for an accepted candidate, any budget `maxRetries` and any
`k < maxRetries`, if the first `k` fetch attempts end in a retryable failure and attempt
`k + 1` is a success of the classification table (status 200, body fully read) whose body
also closes without error, then `doRequest` prints the size of the body and the processing
time after exactly `k + 1` attempts (one attempt when `k = 0`); the printed time is
`time.Since` of the clock reading taken before the first attempt, and it is at least
`k * retryDelay` or, when that exceeds the largest `Duration`, the largest `Duration`. -/
theorem doRequest_succeeds_after_retries (cfg : Config) (env : Nat → Attempt) (now fuel : Nat)
    (url : String) (k n : Nat)
    (hv : MatchString validURLReg url = true) (hk : (k : Int) < cfg.maxRetries)
    (hfail : ∀ j, j < k → (env j).retryable = true)
    (hsucc : specClassify (env k) = AttemptOutcome.Success n)
    (hclose : (env k).closeFails = false)
    (hfuel : k < fuel) :
    ∃ t, doRequest cfg env now fuel url = some t ∧
      outcome t = some FetchResult.Succeeded ∧ attempts t = k + 1 ∧ sleeps t = k ∧
      reportedSize t = some n ∧
      reportedElapsed t =
        some (timeSince now (clockAfter env 0 k now + (env k).getTime + (env k).readTime)) ∧
      min (k * retryDelay) maxDuration ≤
        timeSince now (clockAfter env 0 k now + (env k).getTime + (env k).readTime) := by
  obtain ⟨hs, hsize⟩ := succeeds_of_specClassify (env k) n hsucc hclose
  obtain ⟨t, ht, ho, ha, hsl, hsz, hel⟩ :=
    doRequest_success_run cfg env now fuel url k hv hk hfail hs hfuel
  refine ⟨t, ht, ho, ha, hsl, by rw [hsz, hsize], hel, ?_⟩
  have := timeSince_clockAfter_ge env k now ((env k).getTime + (env k).readTime)
  rwa [← Nat.add_assoc] at this

/-- C3 at a concrete input: the default flags, two timeouts and then a response with status
200 and three bytes, read and closed. -/
theorem doRequest_succeeds_after_retries_witness :
    (MatchString validURLReg urlA = true ∧ ((2 : Nat) : Int) < cfgDefault.maxRetries ∧
      (∀ j, j < 2 → (envThirdOk j).retryable = true) ∧
      specClassify (envThirdOk 2) = AttemptOutcome.Success 3 ∧
      (envThirdOk 2).closeFails = false ∧ 2 < 3) ∧
    ∃ t, doRequest cfgDefault envThirdOk 100 3 urlA = some t ∧
      outcome t = some FetchResult.Succeeded ∧ attempts t = 2 + 1 ∧ sleeps t = 2 ∧
      reportedSize t = some 3 ∧
      reportedElapsed t =
        some (timeSince 100 (clockAfter envThirdOk 0 2 100 + (envThirdOk 2).getTime +
          (envThirdOk 2).readTime)) ∧
      min (2 * retryDelay) maxDuration ≤
        timeSince 100 (clockAfter envThirdOk 0 2 100 + (envThirdOk 2).getTime +
          (envThirdOk 2).readTime) :=
  ⟨⟨by decide, by decide, by decide, by decide, by decide, by decide⟩,
    doRequest_succeeds_after_retries cfgDefault envThirdOk 100 3 urlA 2 3 (by decide)
      (by decide) (by decide) (by decide) (by decide) (by decide)⟩

/-- C3, the claim as stated fails, in two ways. First, with the default flags, one timeout
and then a response with status 200 whose body of three bytes is read to its end (a success
of the classification table) but whose close fails, `doRequest` logs "failed to close body"
after the second attempt and does not report a success. Second, with
`-maxretries 46116860186` on a 64-bit platform, 46116860185 timeouts and then a success,
`doRequest` reports the success after 46116860186 attempts with a processing time of
9223372036854775807 ns, the value at which `time.Since` saturates, which is below
46116860185 times `retryDelay`. -/
theorem success_not_reported_or_time_saturates :
    (MatchString validURLReg urlB = true ∧ ((1 : Nat) : Int) < cfgDefault.maxRetries ∧
      (∀ j, j < 1 → (envSecondCloseFails j).retryable = true) ∧
      specClassify (envSecondCloseFails 1) = AttemptOutcome.Success 3 ∧
      doRequest cfgDefault envSecondCloseFails 0 2 urlB =
        some [Event.get urlB, Event.logSendFailed urlB "timeout", Event.sleep retryDelay,
          Event.get urlB, Event.readAll, Event.closeBody, Event.logCloseFailed urlB] ∧
      outcome [Event.get urlB, Event.logSendFailed urlB "timeout", Event.sleep retryDelay,
          Event.get urlB, Event.readAll, Event.closeBody, Event.logCloseFailed urlB] =
        some FetchResult.GaveUp) ∧
    (MatchString validURLReg urlA = true ∧ ((46116860185 : Nat) : Int) < cfgLong.maxRetries ∧
      (∀ j, j < 46116860185 → (envLongWait j).retryable = true) ∧
      specClassify (envLongWait 46116860185) = AttemptOutcome.Success 3 ∧
      (envLongWait 46116860185).closeFails = false ∧
      ∃ t, doRequest cfgLong envLongWait 0 46116860186 urlA = some t ∧
        outcome t = some FetchResult.Succeeded ∧ attempts t = 46116860185 + 1 ∧
        reportedElapsed t = some 9223372036854775807 ∧
        9223372036854775807 < 46116860185 * retryDelay) := by
  have hretry : ∀ j, j < 46116860185 → (envLongWait j).retryable = true := by
    intro j hj
    unfold envLongWait
    rw [if_pos hj]
    rfl
  refine ⟨⟨by decide, by decide, by decide, by decide, ?_, by decide⟩,
    by decide, by decide, hretry, by decide, by decide, ?_⟩
  · rw [doRequest_accepted _ _ _ _ _ (by decide)]
    rfl
  · obtain ⟨t, ht, ho, ha, _, _, hel⟩ :=
      doRequest_success_run cfgLong envLongWait 0 46116860186 urlA 46116860185 (by decide)
        (by decide) hretry (by decide) (by decide)
    have hdelay : 46116860185 * retryDelay = 9223372037000000000 := by decide
    refine ⟨t, ht, ho, ha, ?_, by rw [hdelay]; decide⟩
    rw [hel]
    have hge := clockAfter_ge envLongWait 46116860185 0 0
    rw [hdelay] at hge
    unfold timeSince maxDuration
    generalize clockAfter envLongWait 0 46116860185 0 = c at hge ⊢
    generalize (envLongWait 46116860185).getTime = g
    generalize (envLongWait 46116860185).readTime = r
    rw [Nat.min_eq_right (by omega)]

/-- C4: for an accepted candidate, when fetch attempt `k + 1` is made (it is within the
budget and the `k` attempts before it ended in retryable failures) and ends in a fatal failure
(status 200, body not readable), `doRequest` returns at once: the run ends with the call of
`Get`, the read, the close and one log line, so no attempt and no delay follows, the total
is exactly `k + 1` attempts (1 for a fatal first attempt) and the outcome is a give-up. -/
theorem doRequest_fatal_stops (cfg : Config) (env : Nat → Attempt) (now fuel : Nat)
    (url : String) (k : Nat)
    (hv : MatchString validURLReg url = true) (hk : (k : Int) < cfg.maxRetries)
    (hfail : ∀ j, j < k → (env j).retryable = true) (hfatal : (env k).fatal = true)
    (hfuel : k < fuel) :
    ∃ t, doRequest cfg env now fuel url = some t ∧
      t = retryTrace url env 0 k ++ [Event.get url, Event.readAll, Event.closeBody,
        if (env k).closeFails then Event.logCloseFailed url else Event.logReadFailed url] ∧
      outcome t = some FetchResult.GaveUp ∧ attempts t = k + 1 ∧ sleeps t = k ∧
      exhausted t = false := by
  rw [doRequest_accepted cfg env now fuel url hv]
  obtain ⟨f, rfl⟩ : ∃ f, fuel = f + 1 + k := ⟨fuel - 1 - k, by omega⟩
  have hfit := cfg.maxRetries_fits.2
  rw [retryLoop_retries cfg env url now k (f + 1) 0 0 now (le_refl 0) (by omega)
    (fun j hj => by simpa using hfail j hj)]
  rw [retryLoop_fatal cfg env url now f _ _ _
    (by rw [IntSize.wrap_succ _ _ (by omega) (by omega)]; omega) (by simpa using hfatal)]
  simp only [Nat.zero_add, Option.map_some']
  refine ⟨_, rfl, rfl, ?_, ?_, ?_, ?_⟩
  · rw [outcome_retryTrace_append]; split <;> rfl
  · rw [attempts_append, attempts_retryTrace]; split <;> rfl
  · rw [sleeps_append, sleeps_retryTrace]; split <;> rfl
  · rw [exhausted_retryTrace_append]; split <;> rfl

/-- C4 at a concrete input: the default flags, one timeout and then a response with status 200
whose read is torn. -/
theorem doRequest_fatal_stops_witness :
    (MatchString validURLReg urlB = true ∧ ((1 : Nat) : Int) < cfgDefault.maxRetries ∧
      (∀ j, j < 1 → (envTornRead j).retryable = true) ∧ (envTornRead 1).fatal = true ∧
      1 < 2) ∧
    ∃ t, doRequest cfgDefault envTornRead 0 2 urlB = some t ∧
      t = retryTrace urlB envTornRead 0 1 ++ [Event.get urlB, Event.readAll, Event.closeBody,
        if (envTornRead 1).closeFails then Event.logCloseFailed urlB
        else Event.logReadFailed urlB] ∧
      outcome t = some FetchResult.GaveUp ∧ attempts t = 1 + 1 ∧ sleeps t = 1 ∧
      exhausted t = false :=
  ⟨⟨by decide, by decide, by decide, by decide, by decide⟩,
    doRequest_fatal_stops cfgDefault envTornRead 0 2 urlB 1 (by decide) (by decide)
      (by decide) (by decide) (by decide)⟩

/-- C5, as amended: a fetch attempt within the budget is classified by the table of the
specification whenever the close of the body does not fail: a retryable failure (transport
error, or status other than 200) logs, sleeps `retryDelay` and goes on with the next
iteration; a fatal failure (status 200, read error) logs "failed to read response" and
returns; a success (status 200, body read) prints the number of bytes of the body and the
time since the start and returns. When the close of a status-200 body fails, the run logs
"failed to close body" and returns, whatever the read gave. -/
theorem attempt_classification (cfg : Config) (env : Nat → Attempt) (url : String)
    (st fuel : Nat) (attempt : Int) (calls now : Nat)
    (hmade : cfg.intSize.wrap (attempt + 1) ≤ cfg.maxRetries) :
    retryLoop cfg env url st (fuel + 1) attempt calls now =
      if (env calls).closeFails then
        some [Event.get url, Event.readAll, Event.closeBody, Event.logCloseFailed url]
      else
        match specClassify (env calls) with
        | AttemptOutcome.RetryableFailure =>
          (retryLoop cfg env url st fuel (cfg.intSize.wrap (attempt + 1)) (calls + 1)
            ((env calls).retryClock now)).map (fun rest => (env calls).retryEvents url ++ rest)
        | AttemptOutcome.FatalFailure =>
          some [Event.get url, Event.readAll, Event.closeBody, Event.logReadFailed url]
        | AttemptOutcome.Success n =>
          some [Event.get url, Event.readAll, Event.closeBody, Event.printSize url n,
            Event.printTime url
              (timeSince st (now + (env calls).getTime + (env calls).readTime)),
            Event.println] := by
  rw [retryLoop]
  simp only [gt_iff_lt, not_lt.mpr hmade, if_false]
  unfold Attempt.closeFails specClassify Attempt.retryEvents Attempt.retryClock
  cases hres : (env calls).result with
  | error e => simp
  | ok res =>
    by_cases hs : res.statusCode = StatusOK
    · cases hc : res.closeErr <;> cases hr : res.readErr <;> simp [hs, hc, hr]
    · simp [hs]

/-- C5 at a concrete input: the first iteration of the loop under the default flags, when the
request times out. -/
theorem attempt_classification_witness :
    cfgDefault.intSize.wrap (0 + 1) ≤ cfgDefault.maxRetries ∧
    retryLoop cfgDefault envThirdOk urlA 0 (3 + 1) 0 0 0 =
      if (envThirdOk 0).closeFails then
        some [Event.get urlA, Event.readAll, Event.closeBody, Event.logCloseFailed urlA]
      else
        match specClassify (envThirdOk 0) with
        | AttemptOutcome.RetryableFailure =>
          (retryLoop cfgDefault envThirdOk urlA 0 3 (cfgDefault.intSize.wrap (0 + 1)) (0 + 1)
            ((envThirdOk 0).retryClock 0)).map
              (fun rest => (envThirdOk 0).retryEvents urlA ++ rest)
        | AttemptOutcome.FatalFailure =>
          some [Event.get urlA, Event.readAll, Event.closeBody, Event.logReadFailed urlA]
        | AttemptOutcome.Success n =>
          some [Event.get urlA, Event.readAll, Event.closeBody, Event.printSize urlA n,
            Event.printTime urlA
              (timeSince 0 (0 + (envThirdOk 0).getTime + (envThirdOk 0).readTime)),
            Event.println] :=
  ⟨by decide, attempt_classification cfgDefault envThirdOk urlA 0 3 0 0 0 (by decide)⟩

/-- C5, the claim as stated fails: a response with status 200 whose body of three bytes is
read to its end is a success in the table of the specification, yet when the close of the
body returns an error `doRequest` logs "failed to close body" and returns without
printing a size: the run is not reported as a success. -/
theorem success_status_full_body_not_reported :
    specClassify (envCloseFails 0) = AttemptOutcome.Success 3 ∧
    doRequest cfgDefault envCloseFails 0 4 urlA =
      some [Event.get urlA, Event.readAll, Event.closeBody, Event.logCloseFailed urlA] ∧
    outcome [Event.get urlA, Event.readAll, Event.closeBody, Event.logCloseFailed urlA] ≠
      some FetchResult.Succeeded ∧
    reportedSize [Event.get urlA, Event.readAll, Event.closeBody, Event.logCloseFailed urlA] =
      none := by
  refine ⟨by decide, ?_, by decide, by decide⟩
  rw [doRequest_accepted _ _ _ _ _ (by decide)]
  rfl

/-- C6, the code at the failing input: with `-maxretries 1` and a server that answers 404,
`doRequest` obtains a response, logs the status, sleeps and gives up; the run contains no
`io.ReadAll` and no `res.Body.Close()`, so the body of the response is never drained or
closed. -/
theorem notFound_body_never_closed :
    (∃ res, (envNotFound 0).result = Except.ok res ∧ res.statusCode = 404) ∧
    doRequest cfgOne envNotFound 0 2 urlA =
      some [Event.get urlA, Event.logStatus 404 urlA, Event.sleep retryDelay,
        Event.logFailedAll urlA] ∧
    closes [Event.get urlA, Event.logStatus 404 urlA, Event.sleep retryDelay,
        Event.logFailedAll urlA] = 0 ∧
    Event.readAll ∉ [Event.get urlA, Event.logStatus 404 urlA, Event.sleep retryDelay,
        Event.logFailedAll urlA] := by
  refine ⟨⟨_, rfl, rfl⟩, ?_, by decide, by decide⟩
  rw [doRequest_accepted _ _ _ _ _ (by decide)]
  rfl

/-- C7, as amended: for every budget `maxRetries` below the largest `int` (negative and zero
included), every candidate and every sequence of answers of the network, `doRequest` returns
once the fuel exceeds `max(maxRetries, 0)`; the run ends in Succeeded, GaveUp or Rejected and
makes at most `max(maxRetries, 0)` fetch attempts, the first one included. -/
theorem doRequest_terminates (cfg : Config) (env : Nat → Attempt) (now fuel : Nat)
    (url : String) (hlt : cfg.maxRetries < cfg.intSize.maxInt)
    (hfuel : cfg.maxRetries.toNat < fuel) :
    ∃ t, doRequest cfg env now fuel url = some t ∧ attempts t ≤ cfg.maxRetries.toNat ∧
      (outcome t = some FetchResult.Succeeded ∨ outcome t = some FetchResult.GaveUp ∨
        outcome t = some FetchResult.Rejected) := by
  cases hv : MatchString validURLReg url with
  | false =>
    exact ⟨[Event.logInvalid url], doRequest_of_rejected cfg env now fuel url hv,
      by simp [attempts], Or.inr (Or.inr rfl)⟩
  | true =>
    rw [doRequest_accepted cfg env now fuel url hv]
    obtain ⟨t, ht, hat⟩ := retryLoop_terminates cfg env url now hlt fuel 0 0 now (le_refl 0)
      (by have := cfg.intSize.one_le_maxInt; omega) (by simpa using hfuel)
    refine ⟨t, ht, by simpa using hat, ?_⟩
    rcases (retryLoop_counts cfg env url now fuel 0 0 now t ht).2 with h | h | h
    · exact Or.inl h.1
    · exact Or.inr (Or.inl h.1)
    · exact Or.inr (Or.inl h.1)

/-- C7 at a concrete input: the default flags on a network where every request times out, with
fuel 4. -/
theorem doRequest_terminates_witness :
    (cfgDefault.maxRetries < cfgDefault.intSize.maxInt ∧ cfgDefault.maxRetries.toNat < 4) ∧
    ∃ t, doRequest cfgDefault envTimeout 0 4 urlB = some t ∧
      attempts t ≤ cfgDefault.maxRetries.toNat ∧
      (outcome t = some FetchResult.Succeeded ∨ outcome t = some FetchResult.GaveUp ∨
        outcome t = some FetchResult.Rejected) :=
  ⟨⟨by decide, by decide⟩,
    doRequest_terminates cfgDefault envTimeout 0 4 urlB (by decide) (by decide)⟩

/-- C7, the claim as stated fails: on a 64-bit platform with
`-maxretries 9223372036854775807` (the largest `int`) and a network on which every request
times out, the test `attempt > maxRetries` is never true and `doRequest` does not return,
whatever the fuel. -/
theorem doRequest_never_returns_at_maxInt64 :
    MatchString validURLReg urlA = true ∧ (∀ n, (envTimeout n).retryable = true) ∧
    cfgMax64.maxRetries = cfgMax64.intSize.maxInt ∧
    ∀ fuel : Nat, doRequest cfgMax64 envTimeout 0 fuel urlA = none := by
  refine ⟨by decide, fun _ => rfl, rfl, fun fuel => ?_⟩
  rw [doRequest_accepted _ _ _ _ _ (by decide)]
  exact retryLoop_diverges cfgMax64 envTimeout urlA 0 rfl (fun _ => rfl) fuel 0 0 0

/-- C8: for the batch of the scenario, with `-maxretries 3 -maxworkers 2` and any network,
the validator accepts the two example.com candidates and rejects "not a url"; the three
calls of `doRequest` all return: the one for "not a url" with the rejection alone, the two
others after at least one and at most three fetch attempts, in Succeeded or GaveUp. So
there is exactly one rejected result and there are exactly two attempted results. -/
theorem scenario_results (sz : IntSize) (env : Nat → Nat → Attempt) (now : Nat → Nat)
    (fuel : Nat) (hfuel : 3 < fuel) :
    MatchString validURLReg urlA = true ∧ MatchString validURLReg notAUrl = false ∧
    MatchString validURLReg urlB = true ∧
    ∃ ta tb, processLines (cfgScenario sz) env now fuel scenarioBatch =
        [some ta, some [Event.logInvalid notAUrl], some tb] ∧
      (1 ≤ attempts ta ∧ attempts ta ≤ 3) ∧ (1 ≤ attempts tb ∧ attempts tb ≤ 3) ∧
      (outcome ta = some FetchResult.Succeeded ∨ outcome ta = some FetchResult.GaveUp) ∧
      (outcome tb = some FetchResult.Succeeded ∨ outcome tb = some FetchResult.GaveUp) ∧
      rejectedCount (processLines (cfgScenario sz) env now fuel scenarioBatch) = 1 ∧
      attemptedCount (processLines (cfgScenario sz) env now fuel scenarioBatch) = 2 := by
  have hA : MatchString validURLReg urlA = true := by decide
  have hN : MatchString validURLReg notAUrl = false := by decide
  have hB : MatchString validURLReg urlB = true := by decide
  have hmax : (cfgScenario sz).maxRetries = 3 := rfl
  have hlt : (cfgScenario sz).maxRetries < (cfgScenario sz).intSize.maxInt := by
    rw [hmax]; cases sz <;> decide
  obtain ⟨ta, hta, ha1, ha3, hoa⟩ := doRequest_attempted (cfgScenario sz) (env 0) (now 0) fuel
    urlA hA (by rw [hmax]; decide) hlt (by rw [hmax]; simpa using hfuel)
  obtain ⟨tb, htb, hb1, hb3, hob⟩ := doRequest_attempted (cfgScenario sz) (env 2) (now 2) fuel
    urlB hB (by rw [hmax]; decide) hlt (by rw [hmax]; simpa using hfuel)
  have htn := doRequest_of_rejected (cfgScenario sz) (env 1) (now 1) fuel notAUrl hN
  rw [hmax] at ha3 hb3
  have hrun : processLines (cfgScenario sz) env now fuel scenarioBatch =
      [some ta, some [Event.logInvalid notAUrl], some tb] := by
    simp [processLines, scenarioBatch, List.enum, List.enumFrom, hta, htb, htn]
  refine ⟨hA, hN, hB, ta, tb, hrun, ⟨ha1, by simpa using ha3⟩, ⟨hb1, by simpa using hb3⟩,
    hoa, hob, ?_, ?_⟩
  · rw [hrun]
    have hna : outcome ta ≠ some FetchResult.Rejected := by
      rcases hoa with h | h <;> rw [h] <;> decide
    have hnb : outcome tb ≠ some FetchResult.Rejected := by
      rcases hob with h | h <;> rw [h] <;> decide
    simp [rejectedCount, List.countP_cons, hna, hnb, outcome]
  · rw [hrun]
    simp [attemptedCount, List.countP_cons, ha1, hb1, attempts]

/-- C8 at a concrete input: a 64-bit platform, two timeouts and then status 200 for every
candidate, with fuel 4. -/
theorem scenario_results_witness :
    3 < 4 ∧
    (MatchString validURLReg urlA = true ∧ MatchString validURLReg notAUrl = false ∧
    MatchString validURLReg urlB = true ∧
    ∃ ta tb, processLines (cfgScenario IntSize.bits64) (fun _ => envThirdOk) (fun _ => 0) 4
        scenarioBatch = [some ta, some [Event.logInvalid notAUrl], some tb] ∧
      (1 ≤ attempts ta ∧ attempts ta ≤ 3) ∧ (1 ≤ attempts tb ∧ attempts tb ≤ 3) ∧
      (outcome ta = some FetchResult.Succeeded ∨ outcome ta = some FetchResult.GaveUp) ∧
      (outcome tb = some FetchResult.Succeeded ∨ outcome tb = some FetchResult.GaveUp) ∧
      rejectedCount (processLines (cfgScenario IntSize.bits64) (fun _ => envThirdOk)
        (fun _ => 0) 4 scenarioBatch) = 1 ∧
      attemptedCount (processLines (cfgScenario IntSize.bits64) (fun _ => envThirdOk)
        (fun _ => 0) 4 scenarioBatch) = 2) :=
  ⟨by decide, scenario_results IntSize.bits64 (fun _ => envThirdOk) (fun _ => 0) 4 (by decide)⟩

/-- C10, as amended: in `doRequest` the fixed delay `retryDelay` is waited after every
attempt that ends in a retryable failure, also after the one that exhausts the budget. For an
accepted candidate, a run that returns sleeps `retryDelay` each time, exactly `a - 1` times
for `a` attempts when it succeeds or stops on a fatal failure, and exactly `a` times (so at
most `a` times) when it gives up because the budget is exhausted. -/
theorem retry_delay_count (cfg : Config) (env : Nat → Attempt) (now fuel : Nat) (url : String)
    (t : List Event) (hv : MatchString validURLReg url = true)
    (hrun : doRequest cfg env now fuel url = some t) :
    (∀ d, Event.sleep d ∈ t → d = retryDelay) ∧
    ((outcome t = some FetchResult.Succeeded ∧ sleeps t + 1 = attempts t) ∨
     (outcome t = some FetchResult.GaveUp ∧ exhausted t = true ∧ sleeps t = attempts t) ∨
     (outcome t = some FetchResult.GaveUp ∧ exhausted t = false ∧
        sleeps t + 1 = attempts t)) := by
  rw [doRequest_accepted cfg env now fuel url hv] at hrun
  exact retryLoop_counts cfg env url now fuel 0 0 now t hrun

/-- C10 at a concrete input: one attempt allowed and a request that times out. -/
theorem retry_delay_count_witness :
    (MatchString validURLReg urlA = true ∧
      doRequest cfgOne envTimeout 0 2 urlA =
        some [Event.get urlA, Event.logSendFailed urlA "timeout", Event.sleep retryDelay,
          Event.logFailedAll urlA]) ∧
    ((∀ d, Event.sleep d ∈ [Event.get urlA, Event.logSendFailed urlA "timeout",
          Event.sleep retryDelay, Event.logFailedAll urlA] → d = retryDelay) ∧
    ((outcome [Event.get urlA, Event.logSendFailed urlA "timeout", Event.sleep retryDelay,
          Event.logFailedAll urlA] = some FetchResult.Succeeded ∧
        sleeps [Event.get urlA, Event.logSendFailed urlA "timeout", Event.sleep retryDelay,
          Event.logFailedAll urlA] + 1 =
        attempts [Event.get urlA, Event.logSendFailed urlA "timeout", Event.sleep retryDelay,
          Event.logFailedAll urlA]) ∨
     (outcome [Event.get urlA, Event.logSendFailed urlA "timeout", Event.sleep retryDelay,
          Event.logFailedAll urlA] = some FetchResult.GaveUp ∧
        exhausted [Event.get urlA, Event.logSendFailed urlA "timeout", Event.sleep retryDelay,
          Event.logFailedAll urlA] = true ∧
        sleeps [Event.get urlA, Event.logSendFailed urlA "timeout", Event.sleep retryDelay,
          Event.logFailedAll urlA] =
        attempts [Event.get urlA, Event.logSendFailed urlA "timeout", Event.sleep retryDelay,
          Event.logFailedAll urlA]) ∨
     (outcome [Event.get urlA, Event.logSendFailed urlA "timeout", Event.sleep retryDelay,
          Event.logFailedAll urlA] = some FetchResult.GaveUp ∧
        exhausted [Event.get urlA, Event.logSendFailed urlA "timeout", Event.sleep retryDelay,
          Event.logFailedAll urlA] = false ∧
        sleeps [Event.get urlA, Event.logSendFailed urlA "timeout", Event.sleep retryDelay,
          Event.logFailedAll urlA] + 1 =
        attempts [Event.get urlA, Event.logSendFailed urlA "timeout", Event.sleep retryDelay,
          Event.logFailedAll urlA]))) :=
  have hrun : doRequest cfgOne envTimeout 0 2 urlA =
      some [Event.get urlA, Event.logSendFailed urlA "timeout", Event.sleep retryDelay,
        Event.logFailedAll urlA] := by
    rw [doRequest_accepted _ _ _ _ _ (by decide)]
    rfl
  ⟨⟨by decide, hrun⟩, retry_delay_count cfgOne envTimeout 0 2 urlA _ (by decide) hrun⟩

/-- C10, the claim as stated fails: with `-maxretries 1` and a request that times out, the
failure on attempt 1 (the last of the budget) is followed by `time.Sleep(retryDelay)` before
"failed all retries": the run makes one attempt and waits once, not at most zero times. -/
theorem last_failure_still_waits :
    doRequest cfgOne envTimeout 0 2 urlB =
      some [Event.get urlB, Event.logSendFailed urlB "timeout", Event.sleep retryDelay,
        Event.logFailedAll urlB] ∧
    outcome [Event.get urlB, Event.logSendFailed urlB "timeout", Event.sleep retryDelay,
        Event.logFailedAll urlB] = some FetchResult.GaveUp ∧
    attempts [Event.get urlB, Event.logSendFailed urlB "timeout", Event.sleep retryDelay,
        Event.logFailedAll urlB] = 1 ∧
    sleeps [Event.get urlB, Event.logSendFailed urlB "timeout", Event.sleep retryDelay,
        Event.logFailedAll urlB] = 1 := by
  refine ⟨?_, by decide, by decide, by decide⟩
  rw [doRequest_accepted _ _ _ _ _ (by decide)]
  rfl

end UrlReader
